import Mathlib

/-!
Verification of the claim/issuance subsystem of bat-go.

The grant registration path is embedded from src/grant/claim.go.  The
promotion package ships only its integration test
(src/promotion/controllers_test.go) in this tree, so the datastore and
controller operations of that package are modelled from the spec
(spec.md sections 3, 4 and 6); wherever the test pins concrete observable
behaviour, the model follows the test's assertions.

Machine decimals (shopspring decimal) are modelled as integers: every
amount the subsystem handles in the spec and the tests is integral (15,
25, 30, bonus 20), and the aggregation facts proved here do not depend on
fractional values.  Timestamps are naturals (each state-changing
operation advances a logical clock); UUIDs are naturals for identities
generated by the store and strings where they arrive over the wire.
-/

namespace BatGo

/-! ### Grant subsystem, from src/grant/claim.go -/

/-- Wallet info as carried by a claim request (wallet.Info). -/
structure WalletInfo where
  id : String
  provider : String
  providerID : String
  publicKey : String
deriving DecidableEq

/-- ClaimGrantRequest from src/grant/claim.go. -/
structure ClaimGrantRequest where
  walletInfo : WalletInfo
deriving DecidableEq

inductive GrantError where
  | AlreadyClaimed
deriving DecidableEq

/-- State of the grant service: the claim ledger (one record per
registered (grantID, walletID) pair) and the claimed-grants counter. -/
structure GrantState where
  ledger : List (String × String)
  claimedGrantsCounter : Nat
deriving DecidableEq

/-- Modelled from the spec: the grant datastore's ClaimGrantIDForWallet is
not under src/ (src/grant/claim.go only calls it).  Per spec section 4.1 it
registers the claim keyed by the (promotion, wallet) pair and rejects a
pair that is already present with the AlreadyClaimed idempotency error. -/
def ClaimGrantIDForWallet (s : GrantState) (grantID : String) (w : WalletInfo) :
    Except GrantError GrantState :=
  if (grantID, w.id) ∈ s.ledger then
    .error .AlreadyClaimed
  else
    .ok { s with ledger := (grantID, w.id) :: s.ledger }

/-- Service.Claim from src/grant/claim.go: delegate to the datastore; on
error return it unchanged; on success increment the claimed-grants
counter.  The returned pair is (state after the call, error if any). -/
def Service.Claim (s : GrantState) (req : ClaimGrantRequest) (grantID : String) :
    GrantState × Option GrantError :=
  match ClaimGrantIDForWallet s grantID req.walletInfo with
  | .error e => (s, some e)
  | .ok s1 => ({ s1 with claimedGrantsCounter := s1.claimedGrantsCounter + 1 }, none)

/-- Run a sequence of claim requests (request, grantID) against the service. -/
def runClaims (s : GrantState) : List (ClaimGrantRequest × String) → GrantState
  | [] => s
  | (req, g) :: rest => runClaims (Service.Claim s req g).1 rest

/-- Number of ledger records for a given (grantID, walletID) pair. -/
def countPair (l : List (String × String)) (pr : String × String) : Nat :=
  (l.filter (fun x => decide (x = pr))).length

/-! ### Promotion subsystem

Modelled from the spec (sections 3, 4, 6): the promotion datastore and
controllers are not under src/, only their integration test is.  Where the
spec and the test's assertions disagree, the model follows the test. -/

/-- Promotion record per spec section 3. -/
structure Promotion where
  id : Nat
  promoType : String
  suggestionsPerGrant : Nat
  approximateValue : ℤ
  active : Bool
  createdAt : Nat
  expiresAt : Nat
deriving DecidableEq

/-- Claim record per spec section 3.  `legacyClaimed` is false for a claim
pre-created administratively (CreateClaim) and becomes true once the
wallet drains it through ClaimForWallet. -/
structure Claim where
  id : Nat
  promotionID : Nat
  walletID : String
  value : ℤ
  bonus : ℤ
  legacyClaimed : Bool
  blindedCreds : List String
  signedCreds : Option (List String)
  createdAt : Nat
deriving DecidableEq

/-- Persistent state of the promotion store plus a fresh-ID source and a
logical clock used for createdAt timestamps. -/
structure PromoState where
  promotions : List Promotion
  claims : List Claim
  nextID : Nat
  now : Nat
deriving DecidableEq

def PromoState.empty : PromoState := ⟨[], [], 0, 0⟩

/-- Modelled from the spec: datastore.CreatePromotion (absent from src/):
insert an inactive promotion of the given type, suggestions-per-grant and
approximate value; expiry is a fixed window after creation. -/
def CreatePromotion (s : PromoState) (ptype : String) (spg : Nat) (value : ℤ) :
    PromoState × Promotion :=
  let p : Promotion :=
    { id := s.nextID, promoType := ptype, suggestionsPerGrant := spg,
      approximateValue := value, active := false, createdAt := s.now,
      expiresAt := s.now + 4 }
  ({ s with
     promotions := s.promotions ++ [p],
     nextID := s.nextID + 1,
     now := s.now + 1 }, p)

/-- Modelled from the spec: datastore.ActivatePromotion (absent from src/):
set the active flag of the promotion (spec section 4.5, Inactive to Active). -/
def ActivatePromotion (s : PromoState) (pid : Nat) : PromoState :=
  { s with
    promotions := s.promotions.map (fun p => if p.id = pid then { p with active := true } else p),
    now := s.now + 1 }

/-- Modelled from the spec: datastore.CreateClaim (absent from src/):
administratively pre-create a claim carrying a granted value and a bonus
for a (promotion, wallet) pair, with no credentials attached yet. -/
def CreateClaim (s : PromoState) (pid : Nat) (w : String) (value bonus : ℤ) :
    PromoState × Claim :=
  let c : Claim :=
    { id := s.nextID, promotionID := pid, walletID := w, value := value,
      bonus := bonus, legacyClaimed := false, blindedCreds := [],
      signedCreds := none, createdAt := s.now }
  ({ s with claims := s.claims ++ [c], nextID := s.nextID + 1, now := s.now + 1 }, c)

inductive ClaimError where
  | AlreadyClaimed
  | PromotionNotActive
deriving DecidableEq

/-- First claim record of the pair, if any. -/
def findClaimFor (s : PromoState) (pid : Nat) (w : String) : Option Claim :=
  s.claims.find? (fun c => c.promotionID == pid && c.walletID == w)

/-- A promotion with this id exists and is active. -/
def promotionActive (s : PromoState) (pid : Nat) : Bool :=
  s.promotions.any (fun p => p.id == pid && p.active)

/-- Modelled from the spec: datastore.ClaimForWallet (absent from src/).
Per spec section 4.1 the promotion must be active and a pair that already
holds a completed claim is rejected with AlreadyClaimed; per the test
(TestGetClaimSummary / setupAdsClaim) a claim pre-created by CreateClaim
is drained in place rather than rejected.  A fresh pair gets a new claim
record valued at the promotion's approximate value. -/
def ClaimForWallet (s : PromoState) (promo : Promotion) (w : String)
    (blinded : List String) : Except ClaimError (PromoState × Claim) :=
  if !promotionActive s promo.id then
    .error .PromotionNotActive
  else
    match findClaimFor s promo.id w with
    | some c =>
      if c.legacyClaimed then
        .error .AlreadyClaimed
      else
        let c1 := { c with legacyClaimed := true, blindedCreds := blinded }
        .ok ({ s with
               claims := s.claims.map (fun d => if d.id = c.id then c1 else d),
               now := s.now + 1 }, c1)
    | none =>
      let c : Claim :=
        { id := s.nextID, promotionID := promo.id, walletID := w,
          value := promo.approximateValue, bonus := 0, legacyClaimed := true,
          blindedCreds := blinded, signedCreds := none, createdAt := s.now }
      .ok ({ s with
             claims := s.claims ++ [c],
             nextID := s.nextID + 1,
             now := s.now + 1 }, c)

/-- Convenience runner keeping only the state of a successful ClaimForWallet. -/
def applyClaim (s : PromoState) (p : Promotion) (w : String) (b : List String) :
    PromoState :=
  match ClaimForWallet s p w b with
  | .ok r => r.1
  | .error _ => s

/-- Successful ClaimForWallet as a total function (state and claim; the
input state and a dummy claim on error). -/
def claimForWalletD (s : PromoState) (p : Promotion) (w : String) (b : List String) :
    PromoState × Claim :=
  match ClaimForWallet s p w b with
  | .ok r => r
  | .error _ => (s, ⟨0, 0, "", 0, 0, false, [], none, 0⟩)

def exceptOk {ε α : Type} : Except ε α → Bool
  | .ok _ => true
  | .error _ => false

/-! ### Claim summary aggregation -/

/-- The claim's promotion exists and has the requested type. -/
def claimMatchesType (s : PromoState) (claimType : String) (c : Claim) : Bool :=
  s.promotions.any (fun p => p.id == c.promotionID && p.promoType == claimType)

/-- Claims of the wallet whose promotion type matches. -/
def matchingClaims (s : PromoState) (w : String) (claimType : String) : List Claim :=
  s.claims.filter (fun c => c.walletID == w && claimMatchesType s claimType c)

structure ClaimSummary where
  earnings : ℤ
  lastClaim : Nat
  claimType : String
deriving DecidableEq

/-- Modelled from the spec: the summary aggregator (absent from src/) per
spec section 4.4, with the earnings formula following the test: the spec
text says earnings sums grantedValue + bonusValue, but TestGetClaimSummary
pins earnings "30" for claims (30,0) and cumulative "40" after adding a
claim (30,20), i.e. earnings sums grantedValue - bonusValue.  lastClaim is
the most recent createdAt; zero matching claims yield no content (none). -/
def GetClaimSummary (s : PromoState) (w : String) (claimType : String) :
    Option ClaimSummary :=
  match matchingClaims s w claimType with
  | [] => none
  | cs => some { earnings := (cs.map (fun c => c.value - c.bonus)).sum,
                 lastClaim := (cs.map Claim.createdAt).foldr max 0,
                 claimType := claimType }

def isHexChar (c : Char) : Bool :=
  (48 ≤ c.toNat && c.toNat ≤ 57) || (97 ≤ c.toNat && c.toNat ≤ 102) ||
  (65 ≤ c.toNat && c.toNat ≤ 70)

def uuidCharOK (i : Nat) (c : Char) : Bool :=
  if i == 8 || i == 13 || i == 18 || i == 23 then c == '-'
  else if i == 14 then c == '4'
  else if i == 19 then
    c == '8' || c == '9' || c == 'a' || c == 'b' || c == 'A' || c == 'B'
  else isHexChar c

/-- Modelled from the spec: the wire validation of a payment identifier
("must be a uuidv4", govalidator's IsUUIDv4, absent from src/): 36
characters, hyphens at positions 8, 13, 18 and 23, version nibble 4,
variant nibble 8/9/a/b, hex digits elsewhere. -/
def isUUIDv4 (str : String) : Bool :=
  let cs := str.toList
  cs.length == 36 && ((List.range 36).all (fun i => uuidCharOK i (cs.getD i ' ')))

inductive SummaryResult where
  | validationError (field msg : String)
  | noContent
  | ok (summary : ClaimSummary)
deriving DecidableEq

/-- Modelled from the spec: the GetClaimSummary controller (absent from
src/) per spec section 6: malformed paymentID yields the validation-error
payload naming the field; no matching claims yield no content; otherwise
the aggregated summary. -/
def GetClaimSummaryHandler (s : PromoState) (paymentID : String) (claimType : String) :
    SummaryResult :=
  if !isUUIDv4 paymentID then
    .validationError "paymentID" "must be a uuidv4"
  else
    match GetClaimSummary s paymentID claimType with
    | none => .noContent
    | some summary => .ok summary

/-! ### Promotions listing -/

/-- One entry of the promotions-listing response (spec section 6). -/
structure PromotionView where
  id : Nat
  promoType : String
  version : Nat
  suggestionsPerGrant : ℤ
  approximateValue : ℤ
  available : Bool
  createdAt : Nat
  expiresAt : Nat
deriving DecidableEq

/-- The wallet has some claim record on this promotion. -/
def hasClaimOn (s : PromoState) (w : String) (pid : Nat) : Bool :=
  s.claims.any (fun c => c.promotionID == pid && c.walletID == w)

/-- Modelled from the spec: the listing serialization (absent from src/).
available is active and not yet claimed by this wallet (spec section 6);
version and the reported suggestionsPerGrant are pinned by
TestGetPromotions: version is the constant 5 and suggestionsPerGrant is
the approximate value divided by the 0.25 suggestion value (a promotion
of value 15 is listed with 60), not the stored per-promotion field. -/
def renderPromotion (s : PromoState) (w : String) (p : Promotion) : PromotionView :=
  { id := p.id, promoType := p.promoType, version := 5,
    suggestionsPerGrant := p.approximateValue * 4,
    approximateValue := p.approximateValue,
    available := p.active && !hasClaimOn s w p.id,
    createdAt := p.createdAt, expiresAt := p.expiresAt }

/-- Modelled from the spec: GET /promotions for a wallet lists every
stored promotion with its computed view. -/
def GetAvailablePromotions (s : PromoState) (w : String) : List PromotionView :=
  s.promotions.map (renderPromotion s w)

/-- The available flag shown for promotion pid in the listing for wallet w. -/
def availableFor (s : PromoState) (w : String) (pid : Nat) : Option Bool :=
  ((GetAvailablePromotions s w).find? (fun v => v.id == pid)).map PromotionView.available

/-! ### Claim read path and issuance pipeline -/

inductive GetClaimResult where
  | notFound
  | pending
  | completed (signedCreds : List String)
deriving DecidableEq

/-- Modelled from the spec: the GetClaim point-read (absent from src/) per
spec section 4.3: pending while the signed credentials are absent, the
signed credentials once present. -/
def GetClaim (s : PromoState) (claimID : Nat) : GetClaimResult :=
  match s.claims.find? (fun c => c.id == claimID) with
  | none => .notFound
  | some c =>
    match c.signedCreds with
    | none => .pending
    | some creds => .completed creds

/-- Modelled from the spec: one issuance attempt for one claim (absent
from src/) per spec section 4.2: submit the blinded tokens to the signer
and attach the signed tokens, transitioning signedCreds from absent to
present; a present value is never overwritten.  The signer is abstract
(its cryptography is out of scope). -/
def IssueCredentials (signer : String → String) (c : Claim) : Claim :=
  match c.signedCreds with
  | none => { c with signedCreds := some (c.blindedCreds.map signer) }
  | some _ => c

/-- Modelled from the spec: the background issuance unit of work for a
given claim id, persisting the issued credentials into the store. -/
def RunIssuance (s : PromoState) (signer : String → String) (claimID : Nat) :
    PromoState :=
  { s with claims := s.claims.map (fun c => if c.id = claimID then IssueCredentials signer c else c) }

/-! ### Concrete scenario mirroring TestGetClaimSummary -/

def adsWallet : String := "00000000-0000-4000-8000-000000000000"

def adsBlinded : List String := ["blindedcredone"]

def adsStep1 : PromoState × Promotion := CreatePromotion PromoState.empty "ads" 2 25

def adsPromo1 : Promotion := adsStep1.2

def adsS1 : PromoState := ActivatePromotion adsStep1.1 adsPromo1.id

def adsStep2 : PromoState × Claim := CreateClaim adsS1 adsPromo1.id adsWallet 30 0

def adsClaim1 : Claim := adsStep2.2

def adsS2 : PromoState := applyClaim adsStep2.1 adsPromo1 adsWallet adsBlinded

def adsStep3 : PromoState × Promotion := CreatePromotion adsS2 "ads" 2 25

def adsPromo2 : Promotion := adsStep3.2

def adsS3 : PromoState := ActivatePromotion adsStep3.1 adsPromo2.id

def adsStep4 : PromoState × Claim := CreateClaim adsS3 adsPromo2.id adsWallet 30 20

def adsClaim2 : Claim := adsStep4.2

def adsS4 : PromoState := applyClaim adsStep4.1 adsPromo2 adsWallet adsBlinded

/-! ### Concrete scenario mirroring TestClaimGrant -/

def ugpStep1 : PromoState × Promotion := CreatePromotion PromoState.empty "ugp" 2 15

def ugpPromo : Promotion := ugpStep1.2

def ugpS1 : PromoState := ActivatePromotion ugpStep1.1 ugpPromo.id

def ugpBlinded : List String := ["blindedcredone", "blindedcredone"]

def ugpRes : PromoState × Claim := claimForWalletD ugpS1 ugpPromo "w" ugpBlinded

/-- Claims recorded for a (promotion, wallet) pair. -/
def claimsFor (s : PromoState) (pid : Nat) (w : String) : List Claim :=
  s.claims.filter (fun c => c.promotionID == pid && c.walletID == w)

/-! ### General list lemmas -/

theorem find?_congr_pred {α : Type} {p q : α → Bool} (h : ∀ a, p a = q a) :
    ∀ l : List α, l.find? p = l.find? q
  | [] => rfl
  | a :: l => by
    cases ha : p a with
    | true => rw [List.find?_cons_of_pos _ ha, List.find?_cons_of_pos _ ((h a) ▸ ha)]
    | false =>
      rw [List.find?_cons_of_neg, List.find?_cons_of_neg, find?_congr_pred h l]
      · rw [← h a, ha]; exact Bool.false_ne_true
      · rw [ha]; exact Bool.false_ne_true

theorem find?_map_key {α β : Type} (f : α → β) (p : α → Bool) (q : β → Bool)
    (h : ∀ a, q (f a) = p a) (l : List α) :
    (l.map f).find? q = (l.find? p).map f := by
  rw [List.find?_map, find?_congr_pred (p := q ∘ f) (q := p) h l]

theorem find?_append_false {α : Type} (p : α → Bool) (l1 l2 : List α)
    (h : ∀ a ∈ l1, p a = false) : (l1 ++ l2).find? p = l2.find? p := by
  rw [List.find?_append, List.find?_eq_none.mpr, Option.none_or]
  intro a ha
  rw [h a ha]; exact Bool.false_ne_true

theorem find?_singleton {α : Type} (p : α → Bool) (a : α) (h : p a = true) :
    [a].find? p = some a := by
  rw [List.find?_cons_of_pos _ h]

theorem filter_singleton_pos {α : Type} (p : α → Bool) (a : α) (h : p a = true) :
    [a].filter p = [a] := by
  rw [List.filter_cons_of_pos h, List.filter_nil]

/-! ### Grant service lemmas -/

theorem countPair_cons (x : String × String) (l : List (String × String))
    (pr : String × String) :
    countPair (x :: l) pr = (if x = pr then 1 else 0) + countPair l pr := by
  by_cases h : x = pr <;> simp [countPair, List.filter_cons, h, Nat.add_comm]

theorem countPair_eq_zero {l : List (String × String)} {pr : String × String}
    (h : pr ∉ l) : countPair l pr = 0 := by
  simp only [countPair, List.length_eq_zero, List.filter_eq_nil_iff,
    decide_eq_true_eq]
  intro a ha hapr
  exact h (hapr ▸ ha)

theorem claim_success_iff (s : GrantState) (req : ClaimGrantRequest) (g : String) :
    (Service.Claim s req g).2 = none ↔ (g, req.walletInfo.id) ∉ s.ledger := by
  by_cases h : (g, req.walletInfo.id) ∈ s.ledger <;>
    simp [Service.Claim, ClaimGrantIDForWallet, h]

theorem claim_already (s : GrantState) (req : ClaimGrantRequest) (g : String)
    (h : (g, req.walletInfo.id) ∈ s.ledger) :
    Service.Claim s req g = (s, some GrantError.AlreadyClaimed) := by
  simp [Service.Claim, ClaimGrantIDForWallet, h]

theorem claim_success_state (s : GrantState) (req : ClaimGrantRequest) (g : String)
    (h : (g, req.walletInfo.id) ∉ s.ledger) :
    Service.Claim s req g =
      (⟨(g, req.walletInfo.id) :: s.ledger, s.claimedGrantsCounter + 1⟩, none) := by
  simp [Service.Claim, ClaimGrantIDForWallet, h]

theorem claim_preserves (s : GrantState) (r : ClaimGrantRequest) (g : String)
    (pr : String × String) (h : pr ∈ s.ledger) :
    pr ∈ (Service.Claim s r g).1.ledger ∧
      countPair (Service.Claim s r g).1.ledger pr = countPair s.ledger pr := by
  by_cases hm : (g, r.walletInfo.id) ∈ s.ledger
  · rw [claim_already s r g hm]
    exact ⟨h, rfl⟩
  · rw [claim_success_state s r g hm]
    have hne : (g, r.walletInfo.id) ≠ pr := fun he => hm (he ▸ h)
    constructor
    · exact List.mem_cons_of_mem _ h
    · rw [countPair_cons, if_neg hne, Nat.zero_add]

theorem runClaims_preserves (ops : List (ClaimGrantRequest × String)) :
    ∀ (s : GrantState) (pr : String × String), pr ∈ s.ledger →
      pr ∈ (runClaims s ops).ledger ∧
        countPair (runClaims s ops).ledger pr = countPair s.ledger pr := by
  induction ops with
  | nil => exact fun s pr h => ⟨h, rfl⟩
  | cons op rest ih =>
    intro s pr h
    have h1 := claim_preserves s op.1 op.2 pr h
    have h2 := ih (Service.Claim s op.1 op.2).1 pr h1.1
    exact ⟨h2.1, by rw [runClaims, h2.2, h1.2]⟩

/-! ### Claim theorems: grant registration -/

/-- C1: after a first successful Claim registration for a (grant, wallet)
pair, every later attempt for the same pair (after any interleaving of
other requests) returns AlreadyClaimed and the ledger keeps exactly one
record for the pair. -/
theorem grant_claim_at_most_once (s : GrantState) (req : ClaimGrantRequest)
    (g : String) (hsucc : (Service.Claim s req g).2 = none)
    (ops : List (ClaimGrantRequest × String)) (req2 : ClaimGrantRequest)
    (hid : req2.walletInfo.id = req.walletInfo.id) :
    (Service.Claim (runClaims (Service.Claim s req g).1 ops) req2 g).2 =
      some GrantError.AlreadyClaimed ∧
    countPair (runClaims (Service.Claim s req g).1 ops).ledger
      (g, req.walletInfo.id) = 1 := by
  have hnot : (g, req.walletInfo.id) ∉ s.ledger := (claim_success_iff s req g).1 hsucc
  rw [claim_success_state s req g hnot]
  have hmem : (g, req.walletInfo.id) ∈
      (GrantState.mk ((g, req.walletInfo.id) :: s.ledger) (s.claimedGrantsCounter + 1)).ledger :=
    List.mem_cons_self _ _
  have hrun := runClaims_preserves ops _ _ hmem
  constructor
  · have : (g, req2.walletInfo.id) ∈
        (runClaims ⟨(g, req.walletInfo.id) :: s.ledger, s.claimedGrantsCounter + 1⟩ ops).ledger := by
      rw [hid]; exact hrun.1
    rw [claim_already _ req2 g this]
  · rw [hrun.2, countPair_cons, if_pos rfl, countPair_eq_zero hnot]

/-- C1 witness: a concrete successful registration followed by an
interleaved other-wallet request and a duplicate attempt. -/
theorem grant_claim_at_most_once_witness :
    (Service.Claim
      (runClaims (Service.Claim ⟨[], 0⟩ ⟨⟨"w1", "uphold", "p1", "k1"⟩⟩ "g1").1
        [(⟨⟨"w2", "uphold", "p2", "k2"⟩⟩, "g1"), (⟨⟨"w1", "uphold", "p1", "k1"⟩⟩, "g1")])
      ⟨⟨"w1", "uphold", "p1", "k1"⟩⟩ "g1").2 = some GrantError.AlreadyClaimed ∧
    countPair
      (runClaims (Service.Claim ⟨[], 0⟩ ⟨⟨"w1", "uphold", "p1", "k1"⟩⟩ "g1").1
        [(⟨⟨"w2", "uphold", "p2", "k2"⟩⟩, "g1"), (⟨⟨"w1", "uphold", "p1", "k1"⟩⟩, "g1")]).ledger
      ("g1", "w1") = 1 :=
  grant_claim_at_most_once ⟨[], 0⟩ ⟨⟨"w1", "uphold", "p1", "k1"⟩⟩ "g1" (by decide)
    [(⟨⟨"w2", "uphold", "p2", "k2"⟩⟩, "g1"), (⟨⟨"w1", "uphold", "p1", "k1"⟩⟩, "g1")]
    ⟨⟨"w1", "uphold", "p1", "k1"⟩⟩ rfl

/-- C7: Service.Claim increments the claimed-grants counter exactly when
the ledger write returns no error, and leaves it unchanged on the error
path. -/
theorem claim_counter_increment (s : GrantState) (req : ClaimGrantRequest)
    (g : String) :
    (Service.Claim s req g).1.claimedGrantsCounter =
      s.claimedGrantsCounter +
        (if (Service.Claim s req g).2 = none then 1 else 0) := by
  by_cases h : (g, req.walletInfo.id) ∈ s.ledger <;>
    simp [Service.Claim, ClaimGrantIDForWallet, h]

/-! ### Issuance pipeline lemmas and theorems -/

theorem IssueCredentials_id (f : String → String) (c : Claim) :
    (IssueCredentials f c).id = c.id := by
  cases h : c.signedCreds <;> simp [IssueCredentials, h]

theorem IssueCredentials_step_idem (f g : String → String) (c : Claim) :
    IssueCredentials g (IssueCredentials f c) = IssueCredentials f c := by
  cases h : c.signedCreds <;> simp [IssueCredentials, h]

/-- C8: the issuance unit of work is idempotent per claim: running it a
second time for the same claim (with any signer) leaves the state of the
first run unchanged, because signed tokens only transition from absent to
present and a present value is never overwritten. -/
theorem map_issue_idem (signer1 signer2 : String → String) (cid : Nat) :
    ∀ l : List Claim,
      (l.map (fun c => if c.id = cid then IssueCredentials signer1 c else c)).map
        (fun c => if c.id = cid then IssueCredentials signer2 c else c) =
      l.map (fun c => if c.id = cid then IssueCredentials signer1 c else c)
  | [] => rfl
  | c :: l => by
    rw [List.map_cons, List.map_cons, map_issue_idem signer1 signer2 cid l]
    by_cases hc : c.id = cid
    · simp [hc, IssueCredentials_id, IssueCredentials_step_idem]
    · simp [hc]

theorem issuance_idempotent (s : PromoState) (signer1 signer2 : String → String)
    (cid : Nat) :
    RunIssuance (RunIssuance s signer1 cid) signer2 cid = RunIssuance s signer1 cid := by
  simp only [RunIssuance]
  rw [map_issue_idem]

/-- C3: while a claim's signed credentials are absent, GetClaim reports
pending; once the issuance pipeline has run for that claim, GetClaim
returns signed tokens whose count equals the count of blinded tokens
submitted at registration. -/
theorem claim_read_pending_until_issued (s : PromoState)
    (signer : String → String) (cid : Nat) (c : Claim)
    (hfind : s.claims.find? (fun d => d.id == cid) = some c)
    (hpend : c.signedCreds = none) :
    GetClaim s cid = .pending ∧
    GetClaim (RunIssuance s signer cid) cid =
      .completed (c.blindedCreds.map signer) ∧
    (c.blindedCreds.map signer).length = c.blindedCreds.length := by
  have hid := List.find?_some hfind
  have hideq : c.id = cid := by simpa using hid
  refine ⟨by simp [GetClaim, hfind, hpend], ?_, by simp⟩
  have hstep : ∀ d : Claim,
      (((fun e => if e.id = cid then IssueCredentials signer e else e) d).id == cid) =
        (d.id == cid) := by
    intro d
    by_cases hd : d.id = cid
    · simp [hd, IssueCredentials_id]
    · simp [hd]
  have h2 : (RunIssuance s signer cid).claims.find? (fun d => d.id == cid) =
      some (IssueCredentials signer c) := by
    show (s.claims.map fun e => if e.id = cid then IssueCredentials signer e else e).find?
        (fun d => d.id == cid) = some (IssueCredentials signer c)
    rw [find?_map_key (fun e => if e.id = cid then IssueCredentials signer e else e)
      (fun d => d.id == cid) (fun d => d.id == cid) hstep s.claims, hfind]
    simp [hideq]
  simp [GetClaim, h2, IssueCredentials, hpend]

/-- C3 witness: the TestClaimGrant scenario, a ugp promotion with
suggestionsPerGrant 2 claimed with two blinded tokens: pending before
issuance, exactly two signed tokens after. -/
theorem claim_read_pending_until_issued_witness :
    (GetClaim ugpRes.1 ugpRes.2.id = .pending ∧
     GetClaim (RunIssuance ugpRes.1 (fun t => t) ugpRes.2.id) ugpRes.2.id =
       .completed (ugpRes.2.blindedCreds.map (fun t => t)) ∧
     (ugpRes.2.blindedCreds.map (fun t => t)).length =
       ugpRes.2.blindedCreds.length) ∧
    ugpRes.2.blindedCreds.length = 2 :=
  ⟨claim_read_pending_until_issued ugpRes.1 (fun t => t) ugpRes.2.id ugpRes.2
    (by decide) (by decide), by decide⟩

/-! ### Claim summary theorems -/

/-- C4: for a wallet with zero claims matching the requested type, the
summary operation returns the distinct no-content result, not a
zero-valued summary. -/
theorem summary_no_claims_no_content (s : PromoState) (w t : String)
    (hw : isUUIDv4 w = true)
    (h : ∀ c ∈ s.claims, c.walletID = w → claimMatchesType s t c = false) :
    GetClaimSummaryHandler s w t = .noContent := by
  have hm : matchingClaims s w t = [] := by
    rw [matchingClaims, List.filter_eq_nil_iff]
    intro c hcmem hpred
    rw [Bool.and_eq_true, beq_iff_eq] at hpred
    rw [h c hcmem hpred.1] at hpred
    exact Bool.false_ne_true hpred.2
  rw [GetClaimSummaryHandler, hw]
  show (match GetClaimSummary s w t with
    | none => SummaryResult.noContent
    | some summary => SummaryResult.ok summary) = SummaryResult.noContent
  rw [GetClaimSummary, hm]

/-- C4 witness: a wallet that holds a claim of another type and none of
the requested type gets no content, not a zero summary. -/
theorem summary_no_claims_no_content_witness :
    GetClaimSummaryHandler adsS2 adsWallet "ugp" = .noContent :=
  summary_no_claims_no_content adsS2 adsWallet "ugp" (by decide) (by decide)

/-- C5: a malformed wallet identifier always yields the validation error
naming the paymentID field; because the result is the validation-error
constructor, it is in particular never a summary, partial or zero. -/
theorem summary_malformed_wallet_validation (s : PromoState) (w t : String)
    (h : isUUIDv4 w = false) :
    GetClaimSummaryHandler s w t =
      .validationError "paymentID" "must be a uuidv4" := by
  rw [GetClaimSummaryHandler, h]
  rfl

/-- C5 witness: the empty wallet identifier, against a store that holds
claims, yields the paymentID validation error. -/
theorem summary_malformed_wallet_validation_witness :
    GetClaimSummaryHandler adsS4 "" "ads" =
      .validationError "paymentID" "must be a uuidv4" :=
  summary_malformed_wallet_validation adsS4 "" "ads" (by decide)

/-- C2 counterexample: in the TestGetClaimSummary scenario (claim of
granted value 30 and bonus 0, then a second claim of granted value 30 and
bonus 20), the summary reports earnings 40, not the 60 the claim states:
the aggregation is not the sum of grantedValue + bonusValue. -/
theorem summary_cumulative_sixty_counterexample :
    GetClaimSummaryHandler adsS4 adsWallet "ads" =
      .ok ⟨40, adsClaim2.createdAt, "ads"⟩ ∧
    (40 : ℤ) ≠ 60 := by
  constructor
  · decide
  · intro h
    exact absurd h (by norm_num)

/-- C2 amended: the summary sums grantedValue minus bonusValue across the
wallet's matching claims and reports the most recent createdAt: earnings
30 after the first claim (30, 0), cumulative earnings 40 after the second
claim (30, 20), with lastClaim equal to the second claim's timestamp. -/
theorem summary_earnings_amended :
    GetClaimSummaryHandler adsS2 adsWallet "ads" =
      .ok ⟨30, adsClaim1.createdAt, "ads"⟩ ∧
    GetClaimSummaryHandler adsS4 adsWallet "ads" =
      .ok ⟨40, adsClaim2.createdAt, "ads"⟩ ∧
    adsClaim1.createdAt < adsClaim2.createdAt := by
  decide

/-- C9: a ugp promotion created with suggestionsPerGrant 2 and value 15 is
listed with suggestionsPerGrant 60 and version 5, while approximateValue,
id, createdAt and expiresAt reflect the stored promotion. -/
theorem ugp_listing_reported_fields :
    GetAvailablePromotions ugpStep1.1 "w" =
      [{ id := ugpPromo.id, promoType := "ugp", version := 5,
         suggestionsPerGrant := 60, approximateValue := 15, available := false,
         createdAt := ugpPromo.createdAt, expiresAt := ugpPromo.expiresAt }] ∧
    ugpPromo.suggestionsPerGrant = 2 ∧ (60 : ℤ) ≠ 2 := by
  refine ⟨by decide, by decide, fun h => absurd h (by norm_num)⟩

/-! ### Promotions listing and ClaimForWallet lemmas -/

theorem availableFor_spec (s : PromoState) (w : String) (pid : Nat) :
    availableFor s w pid =
      (s.promotions.find? (fun q => q.id == pid)).map
        (fun q => q.active && !hasClaimOn s w q.id) := by
  rw [availableFor, GetAvailablePromotions,
    find?_map_key (renderPromotion s w) (fun q => q.id == pid) (fun v => v.id == pid)
      (fun a => rfl) s.promotions]
  cases h : s.promotions.find? (fun q => q.id == pid) <;> simp [renderPromotion]

theorem ClaimForWallet_fresh (s : PromoState) (promo : Promotion) (w : String)
    (blinded : List String) (hact : promotionActive s promo.id = true)
    (hnone : findClaimFor s promo.id w = none) :
    ClaimForWallet s promo w blinded =
      .ok ({ s with
             claims := s.claims ++
               [⟨s.nextID, promo.id, w, promo.approximateValue, 0, true, blinded,
                 none, s.now⟩],
             nextID := s.nextID + 1,
             now := s.now + 1 },
        ⟨s.nextID, promo.id, w, promo.approximateValue, 0, true, blinded, none,
          s.now⟩) := by
  simp only [ClaimForWallet, hact, hnone, Bool.not_true, Bool.false_eq_true,
    if_false]

theorem ClaimForWallet_legacy (s : PromoState) (promo : Promotion) (w : String)
    (blinded : List String) (c : Claim)
    (hact : promotionActive s promo.id = true)
    (hsome : findClaimFor s promo.id w = some c)
    (hleg : c.legacyClaimed = false) :
    ClaimForWallet s promo w blinded =
      .ok ({ s with
             claims := s.claims.map (fun d => if d.id = c.id then
               { c with legacyClaimed := true, blindedCreds := blinded } else d),
             now := s.now + 1 },
        { c with legacyClaimed := true, blindedCreds := blinded }) := by
  simp only [ClaimForWallet, hact, hsome, hleg, Bool.not_true, Bool.false_eq_true,
    if_false]

theorem availableFor_of_find (t : PromoState) (w : String) (pid : Nat)
    (q : Promotion)
    (hf : t.promotions.find? (fun r => r.id == pid) = some q) :
    availableFor t w pid = some (q.active && !hasClaimOn t w q.id) := by
  rw [availableFor_spec, hf, Option.map_some']

theorem availableFor_append_claim (t : PromoState) (w : String) (pid : Nat)
    (q : Promotion) (c : Claim) (n m : Nat)
    (hf : t.promotions.find? (fun r => r.id == pid) = some q)
    (hq : q.active = true) (hcpid : c.promotionID = q.id) (hcw : c.walletID = w) :
    availableFor { t with claims := t.claims ++ [c], nextID := n, now := m } w pid =
      some false := by
  have hf2 : ({ t with claims := t.claims ++ [c], nextID := n, now := m } :
      PromoState).promotions.find? (fun r => r.id == pid) = some q := hf
  rw [availableFor_of_find _ w pid q hf2]
  have hclaim : hasClaimOn
      { t with claims := t.claims ++ [c], nextID := n, now := m } w q.id = true := by
    apply List.any_eq_true.mpr
    refine ⟨c, ?_, ?_⟩
    · show c ∈ t.claims ++ [c]
      exact List.mem_append_right _ (List.mem_singleton.mpr rfl)
    · show (c.promotionID == q.id && c.walletID == w) = true
      rw [hcpid, hcw, beq_self_eq_true, beq_self_eq_true, Bool.and_true]
  rw [hclaim, hq]
  rfl

/-- C6: through the promotion lifecycle, the listing's available flag for
a wallet is false on creation, true once activated while the wallet has
no claim on it, and false again once that wallet has claimed it. -/
theorem promotion_available_lifecycle (s : PromoState) (w : String)
    (blinded : List String)
    (hp : ∀ q ∈ s.promotions, q.id < s.nextID)
    (hc : ∀ c ∈ s.claims, c.promotionID < s.nextID) :
    availableFor (CreatePromotion s "ugp" 2 15).1 w s.nextID = some false ∧
    availableFor (ActivatePromotion (CreatePromotion s "ugp" 2 15).1 s.nextID) w
      s.nextID = some true ∧
    ∃ res : PromoState × Claim,
      ClaimForWallet (ActivatePromotion (CreatePromotion s "ugp" 2 15).1 s.nextID)
        (CreatePromotion s "ugp" 2 15).2 w blinded = .ok res ∧
      availableFor res.1 w s.nextID = some false := by
  have h1 : ∀ q ∈ s.promotions, ((fun q : Promotion => q.id == s.nextID) q) = false := by
    intro q hq
    simp only [beq_eq_false_iff_ne]
    exact Nat.ne_of_lt (hp q hq)
  have hnopredP : ∀ c ∈ s.claims,
      ¬((c.promotionID == s.nextID && c.walletID == w) = true) := by
    intro c hcm hcontra
    rw [Bool.and_eq_true, beq_iff_eq] at hcontra
    exact Nat.ne_of_lt (hc c hcm) hcontra.1
  have hpredP : ((CreatePromotion s "ugp" 2 15).2.id == s.nextID) = true :=
    beq_self_eq_true s.nextID
  have e1 : (CreatePromotion s "ugp" 2 15).1.promotions =
      s.promotions ++ [(CreatePromotion s "ugp" 2 15).2] := rfl
  have hfind1 : (CreatePromotion s "ugp" 2 15).1.promotions.find?
      (fun q => q.id == s.nextID) = some (CreatePromotion s "ugp" 2 15).2 := by
    rw [e1, find?_append_false _ _ _ h1,
      find?_singleton (fun q : Promotion => q.id == s.nextID)
        (CreatePromotion s "ugp" 2 15).2 hpredP]
  have hactid : ∀ q : Promotion,
      ((fun q : Promotion => q.id == s.nextID)
        ((fun q : Promotion =>
          if q.id = s.nextID then { q with active := true } else q) q)) =
      ((fun q : Promotion => q.id == s.nextID) q) := by
    intro q
    by_cases hq : q.id = s.nextID <;> simp [hq]
  have hmk2 := find?_map_key
    (fun q : Promotion => if q.id = s.nextID then { q with active := true } else q)
    (fun q : Promotion => q.id == s.nextID) (fun q : Promotion => q.id == s.nextID)
    hactid (CreatePromotion s "ugp" 2 15).1.promotions
  have hfind2 : (ActivatePromotion (CreatePromotion s "ugp" 2 15).1
      s.nextID).promotions.find? (fun q => q.id == s.nextID) =
      some { (CreatePromotion s "ugp" 2 15).2 with active := true } := by
    have e2 : (ActivatePromotion (CreatePromotion s "ugp" 2 15).1
        s.nextID).promotions =
        (CreatePromotion s "ugp" 2 15).1.promotions.map
          (fun q => if q.id = s.nextID then { q with active := true } else q) := rfl
    rw [e2, hmk2, hfind1, Option.map_some']
    exact congrArg some (if_pos rfl)
  refine ⟨?_, ?_, ?_⟩
  · rw [availableFor_of_find _ w s.nextID _ hfind1]
    rfl
  · rw [availableFor_of_find _ w s.nextID _ hfind2]
    have e4 : hasClaimOn (ActivatePromotion (CreatePromotion s "ugp" 2 15).1 s.nextID)
        w ({ (CreatePromotion s "ugp" 2 15).2 with active := true } : Promotion).id =
        false := List.any_eq_false.mpr hnopredP
    rw [e4]
    rfl
  · have hactive : promotionActive
        (ActivatePromotion (CreatePromotion s "ugp" 2 15).1 s.nextID)
        (CreatePromotion s "ugp" 2 15).2.id = true := by
      apply List.any_eq_true.mpr
      refine ⟨{ (CreatePromotion s "ugp" 2 15).2 with active := true }, ?_, ?_⟩
      · show _ ∈ (CreatePromotion s "ugp" 2 15).1.promotions.map
          (fun q => if q.id = s.nextID then { q with active := true } else q)
        rw [e1]
        have hmem : (CreatePromotion s "ugp" 2 15).2 ∈
            s.promotions ++ [(CreatePromotion s "ugp" 2 15).2] :=
          List.mem_append_right _ (List.mem_singleton.mpr rfl)
        have hmm := List.mem_map_of_mem
          (fun q : Promotion => if q.id = s.nextID then { q with active := true } else q)
          hmem
        have e3 : (fun q : Promotion =>
            if q.id = s.nextID then { q with active := true } else q)
            (CreatePromotion s "ugp" 2 15).2 =
            { (CreatePromotion s "ugp" 2 15).2 with active := true } := if_pos rfl
        rw [e3] at hmm
        exact hmm
      · show (({ (CreatePromotion s "ugp" 2 15).2 with active := true } :
            Promotion).id == (CreatePromotion s "ugp" 2 15).2.id &&
          ({ (CreatePromotion s "ugp" 2 15).2 with active := true } :
            Promotion).active) = true
        rw [beq_self_eq_true]
        rfl
    have hfindc : findClaimFor
        (ActivatePromotion (CreatePromotion s "ugp" 2 15).1 s.nextID)
        (CreatePromotion s "ugp" 2 15).2.id w = none :=
      List.find?_eq_none.mpr hnopredP
    rw [ClaimForWallet_fresh _ _ _ _ hactive hfindc]
    refine ⟨_, rfl, ?_⟩
    apply availableFor_append_claim _ w s.nextID
      { (CreatePromotion s "ugp" 2 15).2 with active := true } _ _ _ hfind2 rfl rfl rfl

/-- C6 witness: the lifecycle run from the empty store. -/
theorem promotion_available_lifecycle_witness :
    availableFor (CreatePromotion PromoState.empty "ugp" 2 15).1 "w"
      PromoState.empty.nextID = some false ∧
    availableFor (ActivatePromotion (CreatePromotion PromoState.empty "ugp" 2 15).1
      PromoState.empty.nextID) "w" PromoState.empty.nextID = some true ∧
    ∃ res : PromoState × Claim,
      ClaimForWallet (ActivatePromotion (CreatePromotion PromoState.empty "ugp" 2 15).1
        PromoState.empty.nextID) (CreatePromotion PromoState.empty "ugp" 2 15).2 "w"
        ["b1", "b2"] = .ok res ∧
      availableFor res.1 "w" PromoState.empty.nextID = some false :=
  promotion_available_lifecycle PromoState.empty "w" ["b1", "b2"] (by decide)
    (by decide)

theorem claimsFor_map_drain (l : List Claim) (c0 c1 : Claim) (pid : Nat)
    (w : String)
    (hobs : ∀ d ∈ l, d.id ≠ c0.id)
    (hfl : ∀ d ∈ l, (d.promotionID == pid && d.walletID == w) = false)
    (hpred : (c1.promotionID == pid && c1.walletID == w) = true) :
    (((l ++ [c0]).map (fun d => if d.id = c0.id then c1 else d)).filter
      (fun c => c.promotionID == pid && c.walletID == w)).map
      (fun c => c.value - c.bonus) = [c1.value - c1.bonus] := by
  rw [List.map_append, List.map_congr_left (fun d hd => if_neg (hobs d hd)),
    List.map_id']
  simp only [List.map_cons, List.map_nil, if_true]
  rw [List.filter_append, List.filter_eq_nil_iff.mpr (by
      intro a ha hcon
      rw [hfl a ha] at hcon
      exact Bool.false_ne_true hcon),
    List.nil_append,
    filter_singleton_pos (fun c : Claim => c.promotionID == pid && c.walletID == w)
      c1 hpred]
  rfl

/-- C10: ClaimForWallet for a (promotion, wallet) pair that already has a
claim pre-created via CreateClaim succeeds rather than failing as
already-claimed, and afterwards the store holds exactly one claim for the
pair, whose value is counted exactly once by any aggregation. -/
theorem legacy_claim_drained_once (s : PromoState) (p : Promotion) (w : String)
    (blinded : List String) (value bonus : ℤ)
    (hactive : promotionActive s p.id = true)
    (hno : findClaimFor s p.id w = none)
    (hfresh : ∀ c ∈ s.claims, c.id ≠ s.nextID) :
    ∃ res : PromoState × Claim,
      ClaimForWallet (CreateClaim s p.id w value bonus).1 p w blinded = .ok res ∧
      (claimsFor res.1 p.id w).map (fun c => c.value - c.bonus) =
        [value - bonus] := by
  have hact1 : promotionActive (CreateClaim s p.id w value bonus).1 p.id = true :=
    hactive
  have hnall : ∀ x ∈ s.claims,
      ¬((x.promotionID == p.id && x.walletID == w) = true) :=
    List.find?_eq_none.mp hno
  have hnallf : ∀ x ∈ s.claims,
      (x.promotionID == p.id && x.walletID == w) = false :=
    fun x hx => Bool.eq_false_iff.mpr (hnall x hx)
  have hpredc0 : ((fun c : Claim => c.promotionID == p.id && c.walletID == w)
      (⟨s.nextID, p.id, w, value, bonus, false, [], none, s.now⟩ : Claim)) = true := by
    show ((p.id == p.id) && (w == w)) = true
    simp
  have hfindc0 : findClaimFor (CreateClaim s p.id w value bonus).1 p.id w =
      some ⟨s.nextID, p.id, w, value, bonus, false, [], none, s.now⟩ := by
    show (s.claims ++ [(⟨s.nextID, p.id, w, value, bonus, false, [], none,
        s.now⟩ : Claim)]).find?
        (fun c => c.promotionID == p.id && c.walletID == w) =
      some (⟨s.nextID, p.id, w, value, bonus, false, [], none, s.now⟩ : Claim)
    rw [find?_append_false (fun c : Claim => c.promotionID == p.id && c.walletID == w)
      s.claims [(⟨s.nextID, p.id, w, value, bonus, false, [], none, s.now⟩ : Claim)]
      hnallf,
      find?_singleton (fun c : Claim => c.promotionID == p.id && c.walletID == w)
        (⟨s.nextID, p.id, w, value, bonus, false, [], none, s.now⟩ : Claim) hpredc0]
  have hcfw := ClaimForWallet_legacy (CreateClaim s p.id w value bonus).1 p w blinded
    ⟨s.nextID, p.id, w, value, bonus, false, [], none, s.now⟩ hact1 hfindc0 rfl
  refine ⟨_, hcfw, ?_⟩
  show (((s.claims ++ [(⟨s.nextID, p.id, w, value, bonus, false, [], none,
      s.now⟩ : Claim)]).map
    (fun d => if d.id = (⟨s.nextID, p.id, w, value, bonus, false, [], none,
        s.now⟩ : Claim).id then
      { (⟨s.nextID, p.id, w, value, bonus, false, [], none, s.now⟩ : Claim) with
        legacyClaimed := true, blindedCreds := blinded } else d)).filter
    (fun c => c.promotionID == p.id && c.walletID == w)).map
    (fun c => c.value - c.bonus) = [value - bonus]
  rw [claimsFor_map_drain s.claims
    ⟨s.nextID, p.id, w, value, bonus, false, [], none, s.now⟩
    ({ (⟨s.nextID, p.id, w, value, bonus, false, [], none, s.now⟩ : Claim) with
      legacyClaimed := true, blindedCreds := blinded }) p.id w
    (fun d hd => hfresh d hd) hnallf
    (by
      show ((p.id == p.id) && (w == w)) = true
      simp)]

/-- C10 witness: the TestGetClaimSummary flow, an activated ads promotion
whose claim is pre-created with value 30 and bonus 0 and then drained. -/
theorem legacy_claim_drained_once_witness :
    ∃ res : PromoState × Claim,
      ClaimForWallet (CreateClaim adsS1 adsPromo1.id adsWallet 30 0).1 adsPromo1
        adsWallet adsBlinded = .ok res ∧
      (claimsFor res.1 adsPromo1.id adsWallet).map (fun c => c.value - c.bonus) =
        [(30 : ℤ) - 0] :=
  legacy_claim_drained_once adsS1 adsPromo1 adsWallet adsBlinded 30 0 (by decide)
    (by decide) (by decide)

end BatGo
